import Mathlib

/-!
# Verification of the Tripos practice app core (`script.js`)

Shallow embedding of the core logic of the drill-question picker:

* `getFlattenedQuestions` — catalog flattening (`script.js` lines 230–244);
* `loadProgressFromGithub` — remote load of the completion set (lines 151–168);
* `saveProgressToGithub`   — merge/save protocol with rollback (lines 173–225);
* `generateQuestions`      — selection engine, Random and Balanced
  ("homogeneous") modes (lines 249–309).

Network outcomes are passed in explicitly (`FetchResult`, `PutResult`), the
JavaScript `Set`s become `Finset String`, and `Math.floor(Math.random()*len)`
becomes `rand k % len` for an arbitrary draw stream `rand : Nat → Nat` and a
call counter `k`.  The potentially non-terminating balanced rotation loop is
embedded with explicit fuel: `outerLoop` returns `none` exactly when the
loop's guard is still true after `fuel` iterations, so non-termination is the
statement `∀ fuel, outerLoop … = none`.
-/

namespace TriposApp

/-- A flattened question record, as built by `getFlattenedQuestions`:
`id` is the composite key `module ++ "_" ++ paper ++ "_" ++ year`. -/
structure Question where
  id : String
  module : String
  paper : String
  year : String
deriving DecidableEq, Repr

/-- The nested catalog `allQuestionsData.michaelmas`:
modules → papers → list of year labels, in insertion order. -/
def Catalog := List (String × List (String × List String))

/-- `getFlattenedQuestions` (script.js 230–244): flattens the nested catalog
into an ordered list of records with composite ids. -/
def getFlattenedQuestions (catalog : Catalog) : List Question :=
  catalog.flatMap fun m =>
    m.2.flatMap fun p =>
      p.2.map fun y =>
        { id := m.1 ++ "_" ++ p.1 ++ "_" ++ y
          module := m.1, paper := p.1, year := y }

/-! ## Synchronization state and network outcomes -/

/-- The mutable sync state of the page (script.js 22–24):
`masterDoneList`, `sessionDoneList`, `githubFileSha`. -/
structure SyncState where
  masterDoneList : Finset String
  sessionDoneList : Finset String
  githubFileSha : Option String
deriving DecidableEq

/-- Outcome of a `GET /contents/progress.json` call: the document with its
sha, a 404 whose message contains "Not Found", or any other API error. -/
inductive FetchResult where
  | found (content : List String) (sha : String)
  | notFound
  | apiError
deriving DecidableEq

/-- Outcome of the conditional `PUT`: success returns the new sha
(`data.content.sha`); `putFailed` covers a version conflict and every other
write failure (the code's single `catch` treats them identically). -/
inductive PutResult where
  | putOk (newSha : String)
  | putFailed
deriving DecidableEq

/-- How `loadProgressFromGithub` reported: success, informational
"not found, will be created on save", or an error banner. -/
inductive LoadOutcome where
  | loaded
  | notFoundInfo
  | loadError
deriving DecidableEq

/-- Whether the status message was rendered with the error colour
(the second argument of `updateSyncStatus`). -/
def LoadOutcome.isError : LoadOutcome → Bool
  | .loaded => false
  | .notFoundInfo => false
  | .loadError => true

/-- `loadProgressFromGithub` (script.js 151–168).  On success the sha and the
master list are replaced; on "Not Found" only the master list is emptied
(`githubFileSha` is left as it was); on any other error nothing changes. -/
def loadProgressFromGithub (res : FetchResult) (s : SyncState) :
    SyncState × LoadOutcome :=
  match res with
  | .found content sha =>
      ({ s with githubFileSha := some sha
                masterDoneList := content.toFinset }, .loaded)
  | .notFound =>
      ({ s with masterDoneList := ∅ }, .notFoundInfo)
  | .apiError => (s, .loadError)

/-- How `saveProgressToGithub` ended: early return on empty session list,
success, or the `catch` branch (rollback). -/
inductive SaveOutcome where
  | noSave
  | saved
  | saveError
deriving DecidableEq

/-- Result of a save: the new state, how it ended, and how many GitHub API
requests were issued. -/
structure SaveResult where
  state : SyncState
  outcome : SaveOutcome
  netCalls : Nat
deriving DecidableEq

/-- `saveProgressToGithub` (script.js 173–225).
Empty session ⇒ immediate return, no network.  Otherwise the session items
are added to the master list, the sha is re-fetched (404 ⇒ `sha := none`,
other error ⇒ abort), then the conditional `PUT` runs; on success the new
sha is stored and the session list cleared, and on any failure the `catch`
deletes every session item from the master list (leaving the session list
intact).  Note that a `PUT` failure happens after `githubFileSha` was already
overwritten by the re-fetch. -/
def saveProgressToGithub (refetch : FetchResult) (put : PutResult)
    (s : SyncState) : SaveResult :=
  if s.sessionDoneList = ∅ then ⟨s, .noSave, 0⟩
  else
    let merged := s.masterDoneList ∪ s.sessionDoneList
    match refetch with
    | .apiError =>
        ⟨⟨merged \ s.sessionDoneList, s.sessionDoneList, s.githubFileSha⟩,
          .saveError, 1⟩
    | .found _ sha =>
        match put with
        | .putOk newSha =>
            ⟨⟨merged, ∅, some newSha⟩, .saved, 2⟩
        | .putFailed =>
            ⟨⟨merged \ s.sessionDoneList, s.sessionDoneList, some sha⟩,
              .saveError, 2⟩
    | .notFound =>
        match put with
        | .putOk newSha =>
            ⟨⟨merged, ∅, some newSha⟩, .saved, 2⟩
        | .putFailed =>
            ⟨⟨merged \ s.sessionDoneList, s.sessionDoneList, none⟩,
              .saveError, 2⟩

/-! ## Selection engine (`generateQuestions`, script.js 249–309) -/

/-- `Math.floor(Math.random() * len)` at the `k`-th call of `Math.random()`:
`0` when `len = 0`, otherwise an arbitrary index `rand k % len < len`. -/
def drawIdx (rand : Nat → Nat) (k len : Nat) : Nat :=
  if len = 0 then 0 else rand k % len

/-- State of the balanced ("homogeneous") selection loop (script.js 278–298):
the insertion-ordered buckets `questionsByModule`, the live key rotation
`moduleKeys`, the draw counter `count`, the output `selected`, and the
number `k` of `Math.random()` calls made so far. -/
structure BState where
  buckets : List (String × List Question)
  keys : List String
  count : Nat
  selected : List Question
  k : Nat
deriving DecidableEq, Repr

/-- `questionsByModule[mod]` (empty if the key is absent). -/
def getBucket (buckets : List (String × List Question)) (m : String) :
    List Question :=
  match buckets.find? (fun b => b.1 = m) with
  | some b => b.2
  | none => []

/-- In-place update `questionsByModule[mod] := qs`. -/
def setBucket (buckets : List (String × List Question)) (m : String)
    (qs : List Question) : List (String × List Question) :=
  buckets.map (fun b => if b.1 = m then (m, qs) else b)

/-- The `reduce` on script.js 278–282: group `available` into insertion-ordered
buckets keyed by module, each bucket keeping pool order. -/
def buildBuckets (avail : List Question) : List (String × List Question) :=
  avail.foldl
    (fun acc q =>
      if acc.any (fun b => b.1 = q.module) then
        acc.map (fun b => if b.1 = q.module then (b.1, b.2 ++ [q]) else b)
      else acc ++ [(q.module, [q])])
    []

/-- One step `i` of the `for (const mod of moduleKeys)` loop (script.js
286–297), continuing to step `i+1`.  The body draws a random element of
`questionsByModule[mod]`, and when the bucket becomes empty removes `mod`
from `moduleKeys` *while the iterator keeps its index* — exactly the
JavaScript `for…of`/`splice` interaction, so removing a key skips the next
key of that pass.  `fuel` only bounds the recursion; `innerPass` supplies
enough for a full traversal. -/
def innerPassAux (rand : Nat → Nat) (num : Int) :
    Nat → Nat → BState → BState
  | 0, _, s => s
  | fuel + 1, i, s =>
    if i < s.keys.length then
      if num ≤ (s.count : Int) then s
      else
        let m := s.keys.getD i ""
        let b := getBucket s.buckets m
        let idx := drawIdx rand s.k b.length
        let b' := b.eraseIdx idx
        let buckets' := setBucket s.buckets m b'
        let cs : Nat × List Question :=
          match b[idx]? with
          | some q => (s.count + 1, s.selected ++ [q])
          | none => (s.count, s.selected)
        let keys' := if b'.length = 0 then s.keys.erase m else s.keys
        innerPassAux rand num fuel (i + 1)
          ⟨buckets', keys', cs.1, cs.2, s.k + 1⟩
    else s

/-- One complete `for (const mod of moduleKeys)` traversal. -/
def innerPass (rand : Nat → Nat) (num : Int) (s : BState) : BState :=
  innerPassAux rand num s.keys.length 0 s

/-- The outer `while (count < num && available.length > 0)` loop (script.js
285–298).  `availLen` is `available.length`, which this branch of the code
never mutates.  Returns `none` when `fuel` runs out with the guard still
true (the JavaScript loop would still be running). -/
def outerLoop (rand : Nat → Nat) (num : Int) (availLen : Nat) :
    Nat → BState → Option BState
  | 0, s =>
      if (s.count : Int) < num ∧ 0 < availLen then none else some s
  | fuel + 1, s =>
      if (s.count : Int) < num ∧ 0 < availLen then
        outerLoop rand num availLen fuel (innerPass rand num s)
      else some s

/-- The fully-random loop (script.js 302–305): draw a random index, remove
that element, append it to `selected`.  Each pass through the guard removes
one element of `avail`, so `fuel := avail.length` is always enough. -/
def randomLoop (rand : Nat → Nat) (num : Int) :
    Nat → Nat → List Question → List Question → List Question
  | 0, _, _, sel => sel
  | fuel + 1, k, avail, sel =>
    if (sel.length : Int) < num ∧ 0 < avail.length then
      let idx := drawIdx rand k avail.length
      match avail[idx]? with
      | some q => randomLoop rand num fuel (k + 1) (avail.eraseIdx idx) (sel ++ [q])
      | none => sel
    else sel

/-- `generateQuestions` (script.js 249–309): flatten the catalog, filter out
completed ids, apply the module and paper filters, then select.  Balanced
("homogeneous") mode runs when the random radio is unchecked and no module
is pinned; it needs `fuel` because of the potentially endless outer loop and
yields `none` when the fuel is exhausted with the loop still running.  Random
mode always terminates and is reported as `some`. -/
def generateQuestions (rand : Nat → Nat) (num : Int) (module paper : String)
    (modeRandom : Bool) (catalog : Catalog) (master : Finset String)
    (fuel : Nat) : Option (List Question) :=
  let allAvailable := getFlattenedQuestions catalog
  let av1 := allAvailable.filter (fun q => !decide (q.id ∈ master))
  let av2 := if module = "all" then av1
             else av1.filter (fun q => q.module = module)
  let av3 := if paper = "all" then av2
             else av2.filter (fun q => q.paper = paper)
  if av3.length = 0 then some []
  else if !modeRandom ∧ module = "all" then
    let buckets := buildBuckets av3
    (outerLoop rand num av3.length fuel
        ⟨buckets, buckets.map (·.1), 0, [], 0⟩).map (·.selected)
  else
    some (randomLoop rand num av3.length 0 av3 [])

/-! ## Theorems about the synchronization protocol -/

/-- C7: Save with an empty session delta returns immediately: it issues no
network request (`netCalls = 0`) and leaves the master set, the session delta
and the version token exactly as they were. -/
theorem save_empty_delta_noop (refetch : FetchResult) (put : PutResult)
    (s : SyncState) (h : s.sessionDoneList = ∅) :
    saveProgressToGithub refetch put s = ⟨s, .noSave, 0⟩ := by
  simp [saveProgressToGithub, h]

/-- Witness for `save_empty_delta_noop` at a concrete state. -/
theorem save_empty_delta_noop_witness :
    saveProgressToGithub .apiError .putFailed
        ⟨{"Chem_P1_2020"}, ∅, some "sha0"⟩ =
      ⟨⟨{"Chem_P1_2020"}, ∅, some "sha0"⟩, .noSave, 0⟩ :=
  save_empty_delta_noop .apiError .putFailed _ rfl

/-- C1: if the pre-write sha re-fetch fails with a non-NotFound error, or the
conditional write fails (conflict included), then — provided the delta is
disjoint from the pre-call master set — the failed save leaves the master set
exactly equal to the pre-call master set and the session delta unmodified,
and a retry of the same delta under a successful environment still merges it
into the master set and clears it. -/
theorem save_failure_rollback_exact (refetch : FetchResult) (put : PutResult)
    (re : FetchResult) (ns : String) (s : SyncState)
    (hne : s.sessionDoneList ≠ ∅)
    (hdisj : Disjoint s.masterDoneList s.sessionDoneList)
    (hfail : refetch = .apiError ∨ put = .putFailed)
    (hre : re ≠ .apiError) :
    (saveProgressToGithub refetch put s).state.masterDoneList
        = s.masterDoneList ∧
    (saveProgressToGithub refetch put s).state.sessionDoneList
        = s.sessionDoneList ∧
    (saveProgressToGithub refetch put s).outcome = .saveError ∧
    (saveProgressToGithub re (.putOk ns)
        (saveProgressToGithub refetch put s).state).state.masterDoneList
        = s.masterDoneList ∪ s.sessionDoneList ∧
    (saveProgressToGithub re (.putOk ns)
        (saveProgressToGithub refetch put s).state).state.sessionDoneList
        = ∅ := by
  have hcancel : (s.masterDoneList ∪ s.sessionDoneList) \ s.sessionDoneList
      = s.masterDoneList := Finset.union_sdiff_cancel_right hdisj
  have hfirst : saveProgressToGithub refetch put s =
      ⟨⟨s.masterDoneList, s.sessionDoneList,
        (saveProgressToGithub refetch put s).state.githubFileSha⟩,
        .saveError, (saveProgressToGithub refetch put s).netCalls⟩ := by
    rcases hfail with h | h
    · subst h; simp [saveProgressToGithub, hne, hcancel]
    · subst h
      cases refetch <;> simp [saveProgressToGithub, hne, hcancel]
  rw [hfirst]
  refine ⟨rfl, rfl, rfl, ?_, ?_⟩ <;>
    cases re <;> simp [saveProgressToGithub, hne] at hre ⊢

/-- Witness for `save_failure_rollback_exact` at a concrete conflict. -/
theorem save_failure_rollback_exact_witness :
    (saveProgressToGithub .notFound .putFailed
        ⟨{"a"}, {"b"}, none⟩).state.masterDoneList = {"a"} ∧
    (saveProgressToGithub .notFound .putFailed
        ⟨{"a"}, {"b"}, none⟩).state.sessionDoneList = {"b"} ∧
    (saveProgressToGithub .notFound .putFailed
        ⟨{"a"}, {"b"}, none⟩).outcome = .saveError ∧
    (saveProgressToGithub (.found [] "s1") (.putOk "s2")
        (saveProgressToGithub .notFound .putFailed
          ⟨{"a"}, {"b"}, none⟩).state).state.masterDoneList
        = {"a"} ∪ {"b"} ∧
    (saveProgressToGithub (.found [] "s1") (.putOk "s2")
        (saveProgressToGithub .notFound .putFailed
          ⟨{"a"}, {"b"}, none⟩).state).state.sessionDoneList = ∅ :=
  save_failure_rollback_exact .notFound .putFailed (.found [] "s1") "s2"
    ⟨{"a"}, {"b"}, none⟩ (by decide) (by decide) (Or.inr rfl) (by decide)

/-- C6 counterexample: with `master = {"a"}` and a session delta `{"a"}` that
overlaps it, a failed save does *not* leave the master set unchanged — the
rollback deletes the shared id, leaving `∅`. -/
theorem save_failed_changes_master_cx :
    (saveProgressToGithub .apiError .putFailed
        ⟨{"a"}, {"a"}, none⟩).state.masterDoneList = ∅ ∧
    (saveProgressToGithub .apiError .putFailed
        ⟨{"a"}, {"a"}, none⟩).state.masterDoneList ≠ ({"a"} : Finset String) := by
  constructor <;> decide

/-- C6 amended: for a non-empty delta *disjoint from the pre-call master set*,
a successful save makes the master set the union of pre-call master and delta
(so the delta is a subset of it), empties the session delta and stores the
sha returned by the write; a failed save (re-fetch error, or write failure
after either re-fetch outcome) leaves master and delta unchanged. -/
theorem save_union_clear_and_rollback (refetch : FetchResult) (ns : String)
    (s : SyncState) (hne : s.sessionDoneList ≠ ∅)
    (hdisj : Disjoint s.masterDoneList s.sessionDoneList)
    (hre : refetch ≠ .apiError) :
    saveProgressToGithub refetch (.putOk ns) s =
      ⟨⟨s.masterDoneList ∪ s.sessionDoneList, ∅, some ns⟩, .saved, 2⟩ ∧
    s.sessionDoneList ⊆ s.masterDoneList ∪ s.sessionDoneList ∧
    (saveProgressToGithub refetch .putFailed s).state.masterDoneList
        = s.masterDoneList ∧
    (saveProgressToGithub refetch .putFailed s).state.sessionDoneList
        = s.sessionDoneList ∧
    (saveProgressToGithub .apiError .putFailed s).state.masterDoneList
        = s.masterDoneList ∧
    (saveProgressToGithub .apiError .putFailed s).state.sessionDoneList
        = s.sessionDoneList := by
  have hcancel : (s.masterDoneList ∪ s.sessionDoneList) \ s.sessionDoneList
      = s.masterDoneList := Finset.union_sdiff_cancel_right hdisj
  refine ⟨?_, Finset.subset_union_right, ?_, ?_, ?_, ?_⟩ <;>
    cases refetch <;>
      simp [saveProgressToGithub, hne, hcancel] at hre ⊢

/-- Witness for `save_union_clear_and_rollback` at a concrete state. -/
theorem save_union_clear_and_rollback_witness :
    saveProgressToGithub .notFound (.putOk "newsha") ⟨{"a"}, {"b"}, some "old"⟩ =
      ⟨⟨{"a"} ∪ {"b"}, ∅, some "newsha"⟩, .saved, 2⟩ ∧
    ({"b"} : Finset String) ⊆ {"a"} ∪ {"b"} ∧
    (saveProgressToGithub .notFound .putFailed
        ⟨{"a"}, {"b"}, some "old"⟩).state.masterDoneList = {"a"} ∧
    (saveProgressToGithub .notFound .putFailed
        ⟨{"a"}, {"b"}, some "old"⟩).state.sessionDoneList = {"b"} ∧
    (saveProgressToGithub .apiError .putFailed
        ⟨{"a"}, {"b"}, some "old"⟩).state.masterDoneList = {"a"} ∧
    (saveProgressToGithub .apiError .putFailed
        ⟨{"a"}, {"b"}, some "old"⟩).state.sessionDoneList = {"b"} :=
  save_union_clear_and_rollback .notFound "newsha" ⟨{"a"}, {"b"}, some "old"⟩
    (by decide) (by decide) (by decide)

/-- C10: when the session delta shares an id with the pre-call master set,
the rollback of a failed save deletes every delta element from the master set
(it computes `(master ∪ delta) \ delta`, not the pre-call master), so the
shared id disappears from the master set. -/
theorem rollback_deletes_shared_ids (refetch : FetchResult) (put : PutResult)
    (s : SyncState) (x : String)
    (hx : x ∈ s.sessionDoneList) (_hxm : x ∈ s.masterDoneList)
    (hfail : refetch = .apiError ∨ put = .putFailed) :
    (saveProgressToGithub refetch put s).state.masterDoneList
        = (s.masterDoneList ∪ s.sessionDoneList) \ s.sessionDoneList ∧
    x ∉ (saveProgressToGithub refetch put s).state.masterDoneList := by
  have hne : s.sessionDoneList ≠ ∅ := Finset.ne_empty_of_mem hx
  have hmain : (saveProgressToGithub refetch put s).state.masterDoneList
      = (s.masterDoneList ∪ s.sessionDoneList) \ s.sessionDoneList := by
    rcases hfail with h | h
    · subst h; simp [saveProgressToGithub, hne]
    · subst h; cases refetch <;> simp [saveProgressToGithub, hne]
  exact ⟨hmain, by rw [hmain]; simp [hx]⟩

/-- Witness for `rollback_deletes_shared_ids`: master `{"a","b"}` shares
`"a"` with the delta `{"a"}`; after the failed save the master is `{"b"}`. -/
theorem rollback_deletes_shared_ids_witness :
    (saveProgressToGithub .apiError .putFailed
        ⟨{"a", "b"}, {"a"}, none⟩).state.masterDoneList
      = ({"a", "b"} ∪ {"a"}) \ {"a"} ∧
    "a" ∉ (saveProgressToGithub .apiError .putFailed
        ⟨{"a", "b"}, {"a"}, none⟩).state.masterDoneList :=
  rollback_deletes_shared_ids .apiError .putFailed ⟨{"a", "b"}, {"a"}, none⟩
    "a" (by decide) (by decide) (Or.inl rfl)

/-- C4 counterexample: after a NotFound load from a state whose sha was
`some "sha0"`, the master set is emptied but the version token is *not* reset
to `null` — it still holds `"sha0"`. -/
theorem load_notfound_keeps_sha_cx :
    (loadProgressFromGithub .notFound
        ⟨{"x"}, ∅, some "sha0"⟩).1.githubFileSha = some "sha0" ∧
    (loadProgressFromGithub .notFound
        ⟨{"x"}, ∅, some "sha0"⟩).1.githubFileSha ≠ none ∧
    (loadProgressFromGithub .notFound
        ⟨{"x"}, ∅, some "sha0"⟩).1.masterDoneList = ∅ := by
  refine ⟨rfl, by decide, rfl⟩

/-- C4 amended: a NotFound load empties the master set, leaves the version
token *unchanged* (it is not reset to null), leaves the session delta alone,
and is reported informationally (not as an error); any other fetch error
leaves the whole state untouched and is reported as an error. -/
theorem load_notfound_and_error_spec (s : SyncState) :
    loadProgressFromGithub .notFound s
        = ({ s with masterDoneList := ∅ }, .notFoundInfo) ∧
    (loadProgressFromGithub .notFound s).1.githubFileSha = s.githubFileSha ∧
    LoadOutcome.notFoundInfo.isError = false ∧
    loadProgressFromGithub .apiError s = (s, .loadError) ∧
    LoadOutcome.loadError.isError = true :=
  ⟨rfl, rfl, rfl, rfl, rfl⟩

/-! ## Theorems about the selection engine -/

/-- A pass over an empty rotation draws nothing and changes nothing. -/
theorem innerPass_empty_keys (rand : Nat → Nat) (num : Int) (s : BState)
    (h : s.keys = []) : innerPass rand num s = s := by
  simp [innerPass, innerPassAux, h]

/-- Once every bucket key has been removed from the rotation while the draw
count is still below the target (and `available` is non-empty, which the
balanced branch never changes), the outer loop makes no further progress:
no amount of fuel reaches a natural exit. -/
theorem outerLoop_stuck (rand : Nat → Nat) (num : Int) (availLen : Nat)
    (s : BState) (hk : s.keys = []) (hc : (s.count : Int) < num)
    (ha : 0 < availLen) :
    ∀ fuel, outerLoop rand num availLen fuel s = none := by
  intro fuel
  induction fuel with
  | zero => simp [outerLoop, hc, ha]
  | succ n ih =>
      rw [outerLoop, if_pos ⟨hc, ha⟩, innerPass_empty_keys rand num s hk]
      exact ih

/-- A one-question catalog, used to exhibit the balanced-mode hang. -/
def demoCatalogOne : Catalog := [("M", [("P", ["2020"])])]

/-- The single record of `demoCatalogOne`. -/
def qM : Question := ⟨"M_P_2020", "M", "P", "2020"⟩

/-- C2 (code bug): in Balanced mode with `N = 2` and a pool of one question,
`generateQuestions` never returns — for every random stream and every amount
of fuel the outer loop is still running — instead of returning the
`min(2, 1) = 1` records the claim promises.  The guard
`available.length > 0` never becomes false because the balanced branch
drains `questionsByModule`, not `available`. -/
theorem generateQuestions_balanced_diverges (rand : Nat → Nat) (fuel : Nat) :
    generateQuestions rand 2 "all" "all" false demoCatalogOne ∅ fuel = none := by
  have h0 : generateQuestions rand 2 "all" "all" false demoCatalogOne ∅ fuel
      = (outerLoop rand 2 1 fuel
          ⟨[("M", [qM])], ["M"], 0, [], 0⟩).map (·.selected) := rfl
  rw [h0]
  cases fuel with
  | zero => rfl
  | succ n =>
      rw [outerLoop, if_pos (by norm_num)]
      have h1 : innerPass rand 2 ⟨[("M", [qM])], ["M"], 0, [], 0⟩
          = ⟨[("M", [])], [], 1, [qM], 1⟩ := by
        simp [innerPass, innerPassAux, getBucket, setBucket, drawIdx,
              Nat.mod_one, List.erase]
      rw [h1, outerLoop_stuck rand 2 1 _ rfl (by norm_num) (by norm_num)]
      rfl

/-- A single question in bucket "A", for the rotation-loop hang. -/
def qA : Question := ⟨"A_P1_2001", "A", "P1", "2001"⟩

/-- C3 (code bug): the balanced rotation loop does *not* terminate once all
buckets are exhausted while fewer than `N` elements have been drawn: with one
bucket of one question and `N = 3`, the loop guard stays true for every
random stream and every amount of fuel.  It only stops when `N` elements are
drawn before the buckets run out. -/
theorem balanced_rotation_diverges (rand : Nat → Nat) (fuel : Nat) :
    outerLoop rand 3 1 fuel ⟨[("A", [qA])], ["A"], 0, [], 0⟩ = none := by
  cases fuel with
  | zero => rfl
  | succ n =>
      rw [outerLoop, if_pos (by norm_num)]
      have h1 : innerPass rand 3 ⟨[("A", [qA])], ["A"], 0, [], 0⟩
          = ⟨[("A", [])], [], 1, [qA], 1⟩ := by
        simp [innerPass, innerPassAux, getBucket, setBucket, drawIdx,
              Nat.mod_one, List.erase]
      rw [h1, outerLoop_stuck rand 3 1 _ rfl (by norm_num) (by norm_num)]

/-- The draw stream that always returns 0 (always picks the first element). -/
def rand0 : Nat → Nat := fun _ => 0

/-- How many selected records came from bucket `m`. -/
def countModule (l : List Question) (m : String) : Nat :=
  (l.filter (fun q => q.module = m)).length

/-- Buckets of sizes 3, 2, 10, 10 — the two small buckets empty during the
second and third rotation passes, each time skipping bucket "X". -/
def skewCatalog : Catalog :=
  [("A", [("P", ["1", "2", "3"])]),
   ("B", [("P", ["1", "2"])]),
   ("X", [("P", ["1", "2", "3", "4", "5", "6", "7", "8", "9", "10"])]),
   ("Y", [("P", ["1", "2", "3", "4", "5", "6", "7", "8", "9", "10"])])]

/-- Initial balanced-loop state over `skewCatalog`'s pool. -/
def skewStart : BState :=
  ⟨buildBuckets (getFlattenedQuestions skewCatalog),
   (buildBuckets (getFlattenedQuestions skewCatalog)).map (·.1), 0, [], 0⟩

/-- The state after three complete rotation passes with `N = 100`. -/
def skewRun3 : BState :=
  innerPass rand0 100 (innerPass rand0 100 (innerPass rand0 100 skewStart))

/-- C5 counterexample: after a prefix of three complete rotation passes over
buckets of sizes {3, 2, 10, 10}, bucket "Y" has contributed 3 records and
bucket "X" only 1 — a difference of 2 — although both buckets were non-empty
for the whole prefix (and the target `N = 100` was still far away, so each
pass was a genuine full rotation).  The bucket removals of "B" (pass 2) and
"A" (pass 3) each made the `for…of` iterator skip "X". -/
theorem balanced_skip_unfair_cx :
    countModule skewRun3.selected "Y" = 3 ∧
    countModule skewRun3.selected "X" = 1 ∧
    getBucket skewRun3.buckets "X" ≠ [] ∧
    getBucket skewRun3.buckets "Y" ≠ [] ∧
    (skewRun3.count : Int) < 100 ∧
    ¬ countModule skewRun3.selected "Y" ≤ countModule skewRun3.selected "X" + 1 := by
  decide

/-- The {2,2,2} catalog of the spec's concrete balanced scenario. -/
def cat222 : Catalog :=
  [("A", [("P", ["1", "2"])]), ("B", [("P", ["1", "2"])]),
   ("C", [("P", ["1", "2"])])]

/-- Initial balanced-loop state over `cat222`'s pool. -/
def start222 : BState :=
  ⟨buildBuckets (getFlattenedQuestions cat222),
   (buildBuckets (getFlattenedQuestions cat222)).map (·.1), 0, [], 0⟩

def a1 : Question := ⟨"A_P_1", "A", "P", "1"⟩
def a2 : Question := ⟨"A_P_2", "A", "P", "2"⟩
def b1 : Question := ⟨"B_P_1", "B", "P", "1"⟩
def b2 : Question := ⟨"B_P_2", "B", "P", "2"⟩
def c1 : Question := ⟨"C_P_1", "C", "P", "1"⟩
def c2 : Question := ⟨"C_P_2", "C", "P", "2"⟩

set_option maxHeartbeats 2000000 in
/-- C5 amended: the general ≤1 fairness bound fails when a bucket empties
mid-pass (see `balanced_skip_unfair_cx`), but while no bucket is exhausted
each rotation pass draws exactly one record per bucket; in particular, in the
spec's {2,2,2}, `N = 4` scenario the loop always terminates with exactly 4
records distributed 2/1/1 in rotation order — never 3 from one bucket while
another still has capacity — for every random stream. -/
theorem balanced_222_distribution (rand : Nat → Nat) :
    (outerLoop rand 4 6 6 start222).map
        (fun st => (countModule st.selected "A", countModule st.selected "B",
                    countModule st.selected "C", st.selected.length))
      = some (2, 1, 1, 4) := by
  have hs : start222 =
      ⟨[("A", [a1, a2]), ("B", [b1, b2]), ("C", [c1, c2])],
       ["A", "B", "C"], 0, [], 0⟩ := by decide
  rw [hs]
  rcases Nat.mod_two_eq_zero_or_one (rand 0) with h0 | h0 <;>
  rcases Nat.mod_two_eq_zero_or_one (rand 1) with h1 | h1 <;>
  rcases Nat.mod_two_eq_zero_or_one (rand 2) with h2 | h2 <;>
  simp [outerLoop, innerPass, innerPassAux, getBucket,
        setBucket, drawIdx, countModule,
        Nat.mod_one, List.erase, h0, h1, h2, a1, a2, b1, b2, c1, c2]

/-- C8: flattening forms every id as the composite
`module ++ "_" ++ paper ++ "_" ++ year`, and the spec's concrete catalog
`{Chem:{P1:["2020"]}, Bio:{P1:["2019"]}}` flattens to exactly
`Chem_P1_2020`, `Bio_P1_2019`, in catalog order.  (Purity/determinism is by
construction: `getFlattenedQuestions` is a function of the catalog alone.) -/
theorem flatten_pure_composite_ids (catalog : Catalog) :
    (∀ r ∈ getFlattenedQuestions catalog,
        r.id = r.module ++ "_" ++ r.paper ++ "_" ++ r.year) ∧
    getFlattenedQuestions
        [("Chem", [("P1", ["2020"])]), ("Bio", [("P1", ["2019"])])] =
      [⟨"Chem_P1_2020", "Chem", "P1", "2020"⟩,
       ⟨"Bio_P1_2019", "Bio", "P1", "2019"⟩] := by
  refine ⟨?_, by decide⟩
  intro r hr
  simp only [getFlattenedQuestions, List.mem_flatMap, List.mem_map] at hr
  obtain ⟨m, -, p, -, y, -, rfl⟩ := hr
  rfl

/-- Witness for `flatten_pure_composite_ids` at the spec's concrete catalog. -/
theorem flatten_pure_composite_ids_witness :
    (⟨"Chem_P1_2020", "Chem", "P1", "2020"⟩ : Question).id
      = "Chem" ++ "_" ++ "P1" ++ "_" ++ "2020" :=
  (flatten_pure_composite_ids
      [("Chem", [("P1", ["2020"])]), ("Bio", [("P1", ["2019"])])]).1
    ⟨"Chem_P1_2020", "Chem", "P1", "2020"⟩ (by decide)

/-! ## Membership preservation: selections never contain completed ids -/

/-- Every record in every bucket satisfies `p`. -/
def GoodBuckets (p : Question → Prop) (bs : List (String × List Question)) : Prop :=
  ∀ b ∈ bs, ∀ q ∈ b.2, p q

theorem getBucket_good {p : Question → Prop} {bs : List (String × List Question)}
    (h : GoodBuckets p bs) (m : String) : ∀ q ∈ getBucket bs m, p q := by
  intro q hq
  unfold getBucket at hq
  cases hfind : bs.find? (fun b => b.1 = m) with
  | none => rw [hfind] at hq; simp at hq
  | some b =>
      rw [hfind] at hq
      exact h b (List.mem_of_find?_eq_some hfind) q hq

theorem setBucket_good {p : Question → Prop} {bs : List (String × List Question)}
    {qs : List Question} (h : GoodBuckets p bs) (m : String)
    (hqs : ∀ q ∈ qs, p q) : GoodBuckets p (setBucket bs m qs) := by
  intro b hb q hq
  unfold setBucket at hb
  obtain ⟨b0, hb0, rfl⟩ := List.mem_map.mp hb
  by_cases hm : b0.1 = m
  · rw [if_pos hm] at hq
    exact hqs q hq
  · rw [if_neg hm] at hq
    exact h b0 hb0 q hq

theorem innerPassAux_good {p : Question → Prop} (rand : Nat → Nat) (num : Int) :
    ∀ (fuel i : Nat) (s : BState), GoodBuckets p s.buckets →
      (∀ q ∈ s.selected, p q) →
      GoodBuckets p (innerPassAux rand num fuel i s).buckets ∧
      ∀ q ∈ (innerPassAux rand num fuel i s).selected, p q := by
  intro fuel
  induction fuel with
  | zero => intro i s hb hs; exact ⟨hb, hs⟩
  | succ n ih =>
      intro i s hb hs
      rw [innerPassAux]
      by_cases hi : i < s.keys.length
      · rw [if_pos hi]
        by_cases hc : num ≤ (s.count : Int)
        · rw [if_pos hc]; exact ⟨hb, hs⟩
        · rw [if_neg hc]
          apply ih
          · exact setBucket_good hb _
              (fun q hq => getBucket_good hb _ q (List.eraseIdx_subset _ _ hq))
          · cases hget : (getBucket s.buckets (s.keys.getD i ""))[drawIdx rand s.k (getBucket s.buckets (s.keys.getD i "")).length]? with
            | none => simpa [hget] using hs
            | some q =>
                have hqp : p q :=
                  getBucket_good hb _ q (List.getElem?_mem hget)
                intro r hr
                simp only [hget] at hr
                rcases List.mem_append.mp hr with h1 | h1
                · exact hs r h1
                · simp at h1; subst h1; exact hqp
      · rw [if_neg hi]; exact ⟨hb, hs⟩

theorem outerLoop_good {p : Question → Prop} (rand : Nat → Nat) (num : Int)
    (availLen : Nat) :
    ∀ (fuel : Nat) (s : BState) (st : BState),
      GoodBuckets p s.buckets → (∀ q ∈ s.selected, p q) →
      outerLoop rand num availLen fuel s = some st →
      ∀ q ∈ st.selected, p q := by
  intro fuel
  induction fuel with
  | zero =>
      intro s st hb hs h
      rw [outerLoop] at h
      split at h
      · exact absurd h (by simp)
      · obtain rfl : s = st := by injection h
        exact hs
  | succ n ih =>
      intro s st hb hs h
      rw [outerLoop] at h
      split at h
      · have := innerPassAux_good rand num s.keys.length 0 s hb hs
        exact ih _ st this.1 this.2 h
      · obtain rfl : s = st := by injection h
        exact hs

theorem randomLoop_good {p : Question → Prop} (rand : Nat → Nat) (num : Int) :
    ∀ (fuel k : Nat) (avail sel : List Question),
      (∀ q ∈ avail, p q) → (∀ q ∈ sel, p q) →
      ∀ q ∈ randomLoop rand num fuel k avail sel, p q := by
  intro fuel
  induction fuel with
  | zero => intro k avail sel _ hs; exact hs
  | succ n ih =>
      intro k avail sel ha hs
      rw [randomLoop]
      split
      · cases hget : avail[drawIdx rand k avail.length]? with
        | none => simp only [hget]; exact hs
        | some q =>
            simp only [hget]
            apply ih
            · exact fun r hr => ha r (List.eraseIdx_subset _ _ hr)
            · intro r hr
              rcases List.mem_append.mp hr with h1 | h1
              · exact hs r h1
              · simp at h1; subst h1
                exact ha _ (List.getElem?_mem hget)
      · exact hs

theorem buildBuckets_good {p : Question → Prop} :
    ∀ (l : List Question) (acc : List (String × List Question)),
      GoodBuckets p acc → (∀ q ∈ l, p q) →
      GoodBuckets p (l.foldl
        (fun acc q =>
          if acc.any (fun b => b.1 = q.module) then
            acc.map (fun b => if b.1 = q.module then (b.1, b.2 ++ [q]) else b)
          else acc ++ [(q.module, [q])]) acc) := by
  intro l
  induction l with
  | nil => intro acc hacc _; exact hacc
  | cons x xs ih =>
      intro acc hacc hl
      rw [List.foldl_cons]
      apply ih
      · have hx : p x := hl x (List.mem_cons_self x xs)
        split
        · intro b hb q hq
          obtain ⟨b0, hb0, rfl⟩ := List.mem_map.mp hb
          by_cases hm : b0.1 = x.module
          · rw [if_pos hm] at hq
            rcases List.mem_append.mp hq with h1 | h1
            · exact hacc b0 hb0 q h1
            · simp at h1; subst h1; exact hx
          · rw [if_neg hm] at hq
            exact hacc b0 hb0 q hq
        · intro b hb q hq
          rcases List.mem_append.mp hb with h1 | h1
          · exact hacc b h1 q hq
          · simp at h1; subst h1
            simp at hq; subst hq; exact hx
      · exact fun q hq => hl q (List.mem_cons_of_mem x hq)

/-- C9: for every catalog, completion set, filter choice, count, mode, random
stream and fuel, whenever `generateQuestions` returns a selection, no id that
is in the completion (master) set appears in it: the candidate pool is
filtered against the master set before either sampling mode runs, and both
modes only ever output pool elements. -/
theorem generateQuestions_excludes_completed (rand : Nat → Nat) (num : Int)
    (module paper : String) (modeRandom : Bool) (catalog : Catalog)
    (master : Finset String) (fuel : Nat) (sel : List Question)
    (h : generateQuestions rand num module paper modeRandom catalog master fuel
          = some sel) :
    ∀ q ∈ sel, q.id ∉ master := by
  set av1 := (getFlattenedQuestions catalog).filter
      (fun q => !decide (q.id ∈ master)) with h1
  set av2 := if module = "all" then av1
             else av1.filter (fun q => q.module = module) with h2
  set av3 := if paper = "all" then av2
             else av2.filter (fun q => q.paper = paper) with h3
  have hav1 : ∀ q ∈ av1, q.id ∉ master := by
    intro q hq
    have := List.of_mem_filter hq
    simpa using this
  have hav2 : ∀ q ∈ av2, q.id ∉ master := by
    rw [h2]; split
    · exact hav1
    · exact fun q hq => hav1 q (List.mem_of_mem_filter hq)
  have hav3 : ∀ q ∈ av3, q.id ∉ master := by
    rw [h3]; split
    · exact hav2
    · exact fun q hq => hav2 q (List.mem_of_mem_filter hq)
  have hgen : generateQuestions rand num module paper modeRandom catalog master fuel
      = if av3.length = 0 then some []
        else if !modeRandom ∧ module = "all" then
          (outerLoop rand num av3.length fuel
            ⟨buildBuckets av3, (buildBuckets av3).map (·.1), 0, [], 0⟩).map
              (·.selected)
        else some (randomLoop rand num av3.length 0 av3 []) := rfl
  rw [hgen] at h
  split at h
  · obtain rfl : ([] : List Question) = sel := by injection h
    intro q hq; cases hq
  · split at h
    · rw [Option.map_eq_some'] at h
      obtain ⟨st, hst, hsel⟩ := h
      intro q hq
      have hb : GoodBuckets (fun q => q.id ∉ master) (buildBuckets av3) := by
        unfold buildBuckets
        exact buildBuckets_good av3 [] (fun b hb => absurd hb (List.not_mem_nil b)) hav3
      have hgood := outerLoop_good rand num av3.length fuel _ st hb
        (fun r hr => absurd hr (List.not_mem_nil r)) hst
      exact hgood q (hsel ▸ hq)
    · obtain h' : randomLoop rand num av3.length 0 av3 [] = sel := by injection h
      intro q hq
      exact randomLoop_good rand num av3.length 0 av3 []
        hav3 (fun r hr => absurd hr (List.not_mem_nil r)) q (h' ▸ hq)

/-- Witness for `generateQuestions_excludes_completed`: with master
`{"M_P_1"}`, a random-mode run returns exactly `[M_P_2]`, whose id is not in
the master set. -/
theorem generateQuestions_excludes_completed_witness :
    (⟨"M_P_2", "M", "P", "2"⟩ : Question).id ∉ ({"M_P_1"} : Finset String) :=
  generateQuestions_excludes_completed rand0 5 "all" "all" true
    [("M", [("P", ["1", "2"])])] {"M_P_1"} 0 [⟨"M_P_2", "M", "P", "2"⟩]
    (by decide) ⟨"M_P_2", "M", "P", "2"⟩ (by decide)

end TriposApp
